import Mathlib

/-!
Shallow embedding of `src/app.py` (Smart Analyst SaaS).

The program is a single-page app: a flat JSON usage store keyed by email,
a bounded-retry wrapper around a remote LLM call, and a dashboard that
gates question input on a free-quota counter.

Modelling conventions:
* The persisted backing file is a `FileState`: absent, or present with
  content that either parses as the store's JSON shape or does not
  (`json.load` raises on a malformed file).
* Fallible Python code (paths that can raise) returns `Except String _`.
* The remote LLM call is an oracle `Nat → CallResult` giving the outcome
  of each attempt; `ask_gemini_with_retry` additionally returns the list
  of backoff waits (in seconds) it performed, in order.
* `datetime.now()` is an ambient input, passed as an explicit timestamp.
-/

namespace SmartAnalyst

/-- One persisted question/answer record: `{"time": …, "doc": …, "q": …, "a": …}`
(app.py line 39). Immutable once appended. -/
structure QAEntry where
  time : String
  doc : String
  q : String
  a : String
  deriving DecidableEq, Repr

/-- One user's record in the store: `{"history": […], "credits_used": n}`
(app.py line 36). -/
structure UserRecord where
  history : List QAEntry
  credits_used : Nat
  deriving DecidableEq, Repr

/-- The persisted store: a JSON object keyed by email, modelled as an
association list preserving key insertion order (Python `dict`). -/
abbrev Store := List (String × UserRecord)

/-- Content of the backing file when it exists: either well-formed JSON of
the store's shape, or text that `json.load` cannot parse. -/
inductive FileContent where
  | wellFormed (store : Store)
  | malformed (raw : String)
  deriving DecidableEq

/-- State of the backing file `user_data.json`: `none` = absent. -/
abbrev FileState := Option FileContent

/-- Python `email in data` / `data[email]` lookup on the store. -/
def lookupStore : Store → String → Option UserRecord
  | [], _ => none
  | (k, v) :: rest, email => if k == email then some v else lookupStore rest email

/-- Python `data[email] = r`: replaces the existing entry in place, or
appends a new key at the end (dict insertion order). -/
def storeSet : Store → String → UserRecord → Store
  | [], email, r => [(email, r)]
  | (k, v) :: rest, email, r =>
    if k == email then (k, r) :: rest else (k, v) :: storeSet rest email r

/-- Error message produced by `json.load` on a malformed file. -/
def jsonDecodeError : String := "json.decoder.JSONDecodeError: Expecting value"

/-- `load_data` (app.py lines 23-27): returns `{}` when the file is absent,
`json.load`s it otherwise — raising if the content is not well-formed JSON. -/
def load_data : FileState → Except String Store
  | none => .ok []
  | some (.wellFormed s) => .ok s
  | some (.malformed _) => .error jsonDecodeError

/-- `save_data` (app.py lines 29-31): overwrites the backing file with the
serialized store. -/
def save_data (data : Store) : FileState :=
  some (.wellFormed data)

/-- `save_chat_history` (app.py lines 33-42): whole-file read-modify-write.
Reads the store, inserts `{"history": [], "credits_used": 0}` for a new
email, appends one `QAEntry`, increments `credits_used` by 1, writes back.
The `datetime.now()` timestamp is passed explicitly. -/
def save_chat_history (fs : FileState) (email timestamp doc_name question answer : String) :
    Except String FileState := do
  let data ← load_data fs
  let data :=
    if (lookupStore data email).isNone then storeSet data email ⟨[], 0⟩ else data
  let entry : QAEntry := ⟨timestamp, doc_name, question, answer⟩
  let r := (lookupStore data email).getD ⟨[], 0⟩
  let data := storeSet data email ⟨r.history ++ [entry], r.credits_used + 1⟩
  return save_data data

/-- `get_user_stats` (app.py lines 44-48): `(credits_used, history)` for a
known email, `(0, [])` for an unknown one; propagates `load_data`'s error. -/
def get_user_stats (fs : FileState) (email : String) :
    Except String (Nat × List QAEntry) := do
  let data ← load_data fs
  match lookupStore data email with
  | some r => return (r.credits_used, r.history)
  | none => return (0, [])

/-! ### Answer Engine (`ask_gemini_with_retry`, app.py lines 61-82) -/

/-- Outcome of one `model.generate_content(prompt)` attempt: the response
text, or the `str(e)` of the exception it raised. -/
inductive CallResult where
  | success (text : String)
  | failure (err : String)
  deriving DecidableEq

/-- Character-list version of Python `needle in hay` (substring test):
does the haystack start with the needle? -/
def startsWithChars : List Char → List Char → Bool
  | [], _ => true
  | _ :: _, [] => false
  | a :: as, b :: bs => a == b && startsWithChars as bs

/-- Does the needle occur anywhere in the haystack? -/
def containsChars (needle : List Char) : List Char → Bool
  | [] => startsWithChars needle []
  | b :: bs => startsWithChars needle (b :: bs) || containsChars needle bs

/-- Python `needle in hay` on strings, as used in `"429" in str(e)`
(app.py line 69) and the save guard (line 175). -/
def hasSubstring (needle hay : String) : Bool :=
  containsChars needle.toList hay.toList

/-- The formatted non-rate-limit error reply (app.py line 80). -/
def technicalErrorMsg (e : String) : String :=
  "⚠️ Technical Error: " ++ e

/-- The fixed retry-exhaustion reply (app.py line 82). -/
def busyMsg : String :=
  "❌ System is extremely busy. Please wait 2 minutes before asking again."

/-- `wait_times = [10, 20, 30]` (app.py line 63). -/
def wait_times : List Nat := [10, 20, 30]

/-- The retry loop body (app.py lines 65-82): attempt the call; on success
return its text; on a failure whose text contains `"429"` sleep the current
wait and continue; on any other failure return the formatted error; after
the list of waits is exhausted return the busy message. Returns the reply
together with the list of backoff waits performed, in order. -/
def retryLoop (call : Nat → CallResult) : Nat → List Nat → String × List Nat
  | _, [] => (busyMsg, [])
  | i, wait_seconds :: rest =>
    match call i with
    | .success t => (t, [])
    | .failure e =>
      if hasSubstring "429" e then
        let (r, ws) := retryLoop call (i + 1) rest
        (r, wait_seconds :: ws)
      else
        (technicalErrorMsg e, [])

/-- `ask_gemini_with_retry` (app.py lines 61-82). Every exit path is a
returned string (the `String × List Nat` return type has no exception
component): the `except Exception` clause converts every attempt failure
into either a retry or a returned error string. -/
def ask_gemini_with_retry (call : Nat → CallResult) : String × List Nat :=
  retryLoop call 0 wait_times

/-! ### Session Controller (dashboard, app.py lines 106-186) -/

/-- One transient chat message: `{"role": …, "content": …}` in
`st.session_state.current_chat` (app.py lines 90, 154, 176). -/
structure ChatMessage where
  role : String
  content : String
  deriving DecidableEq, Repr

/-- `FREE_LIMIT = 5` (app.py line 11). -/
def FREE_LIMIT : Int := 5

/-- The dashboard quota computation (app.py lines 108-109, 150):
`credits_left = FREE_LIMIT - credits_used`, with the chat input shown
exactly when `credits_left > 0`. Returns `(credits_left, inputShown)`;
propagates `get_user_stats`'s error. -/
def dashboard_gate (fs : FileState) (email : String) : Except String (Int × Bool) := do
  let (credits_used, _history) ← get_user_stats fs email
  let credits_left : Int := FREE_LIMIT - (credits_used : Int)
  return (credits_left, decide (credits_left > 0))

/-- The save guard (app.py line 175): a reply is persisted only when it
contains neither failure marker. -/
def replySavable (bot_reply : String) : Bool :=
  !hasSubstring "Technical Error" bot_reply &&
    !hasSubstring "System is extremely busy" bot_reply

/-- The dashboard question handler (app.py lines 151-181), run when the
chat input fires with `credits_left > 0` and a usable document. Appends the
user message to the transcript (line 154); if the API key placeholder is
still present only an error is shown (lines 159-160); otherwise invokes
`ask_gemini_with_retry` (line 170) and, when the reply passes the save
guard (line 175), appends the assistant message and persists via
`save_chat_history` (lines 176-177). A `save_chat_history` exception is
caught by the surrounding `except` (lines 180-181), which shows `st.error`
and leaves the file unchanged. Returns `(transcript, file state)`. -/
def handleQuestion (apiKeyMissing : Bool) (chat : List ChatMessage) (fs : FileState)
    (email doc_name timestamp question : String) (call : Nat → CallResult) :
    List ChatMessage × FileState :=
  let chat1 := chat ++ [⟨"user", question⟩]
  if apiKeyMissing then
    (chat1, fs)
  else
    let bot_reply := (ask_gemini_with_retry call).1
    if replySavable bot_reply then
      let chat2 := chat1 ++ [⟨"assistant", bot_reply⟩]
      match save_chat_history fs email timestamp doc_name question bot_reply with
      | .ok fs' => (chat2, fs')
      | .error _ => (chat2, fs)
    else
      (chat1, fs)

/-! ### Sequencing `recordAnswer` calls -/

/-- The arguments of one `save_chat_history` call (the timestamp made
explicit). -/
structure RACall where
  email : String
  timestamp : String
  doc_name : String
  question : String
  answer : String
  deriving DecidableEq, Repr

/-- The `QAEntry` a call appends (app.py line 39). -/
def RACall.entry (c : RACall) : QAEntry :=
  ⟨c.timestamp, c.doc_name, c.question, c.answer⟩

/-- Run a sequence of `save_chat_history` calls against the backing file,
stopping at the first raised exception (each call is a fresh whole-file
read-modify-write). -/
def runRecord : FileState → List RACall → Except String FileState
  | fs, [] => .ok fs
  | fs, c :: cs =>
    match save_chat_history fs c.email c.timestamp c.doc_name c.question c.answer with
    | .ok fs' => runRecord fs' cs
    | .error e => .error e

/-- The `credits_used` a store assigns an email (0 when absent). -/
def creditsOf (s : Store) (email : String) : Nat :=
  ((lookupStore s email).getD ⟨[], 0⟩).credits_used

/-- The history a store assigns an email ([] when absent). -/
def historyOf (s : Store) (email : String) : List QAEntry :=
  ((lookupStore s email).getD ⟨[], 0⟩).history

/-- The entries a call sequence appends for one email, in order. -/
def entriesFor (email : String) (cs : List RACall) : List QAEntry :=
  (cs.filter (fun c => c.email == email)).map RACall.entry

/-- The pure store transformation `save_chat_history` performs on a
successfully loaded store. -/
def recordAnswerStore (s : Store) (c : RACall) : Store :=
  storeSet s c.email ⟨historyOf s c.email ++ [c.entry], creditsOf s c.email + 1⟩

/-- `runRecord`'s pure counterpart on stores. -/
def runStore (s : Store) (cs : List RACall) : Store :=
  cs.foldl recordAnswerStore s

/-! ### Store lemmas -/

theorem lookup_storeSet_self (s : Store) (email : String) (r : UserRecord) :
    lookupStore (storeSet s email r) email = some r := by
  induction s with
  | nil => simp [storeSet, lookupStore]
  | cons kv rest ih =>
    obtain ⟨k, v⟩ := kv
    by_cases h : k = email
    · subst h; simp [storeSet, lookupStore]
    · simp [storeSet, lookupStore, h, ih]

theorem lookup_storeSet_other (s : Store) (email e' : String) (r : UserRecord)
    (h : e' ≠ email) :
    lookupStore (storeSet s email r) e' = lookupStore s e' := by
  induction s with
  | nil => simp [storeSet, lookupStore, Ne.symm h]
  | cons kv rest ih =>
    obtain ⟨k, v⟩ := kv
    by_cases hk : k = email
    · subst hk; simp [storeSet, lookupStore, Ne.symm h]
    · simp [storeSet, lookupStore, hk, ih]

theorem storeSet_storeSet (s : Store) (k : String) (v w : UserRecord) :
    storeSet (storeSet s k v) k w = storeSet s k w := by
  induction s with
  | nil => simp [storeSet]
  | cons kv rest ih =>
    obtain ⟨k', v'⟩ := kv
    by_cases h : k' = k
    · subst h; simp [storeSet]
    · simp [storeSet, h, ih]

/-- On a loadable file, `save_chat_history` succeeds and performs exactly
the pure transformation `recordAnswerStore`, writing the result back. -/
theorem save_chat_history_eq (fs : FileState) (s : Store) (c : RACall)
    (hload : load_data fs = .ok s) :
    save_chat_history fs c.email c.timestamp c.doc_name c.question c.answer =
      .ok (save_data (recordAnswerStore s c)) := by
  cases hl : lookupStore s c.email with
  | none =>
    simp [save_chat_history, hload, hl, recordAnswerStore, creditsOf, historyOf,
      RACall.entry, lookup_storeSet_self, storeSet_storeSet]
  | some r =>
    simp [save_chat_history, hload, hl, recordAnswerStore, creditsOf, historyOf,
      RACall.entry]

theorem runStore_nil (s : Store) : runStore s [] = s := rfl

theorem runStore_cons (s : Store) (c : RACall) (cs : List RACall) :
    runStore s (c :: cs) = runStore (recordAnswerStore s c) cs := rfl

theorem runRecord_eq (cs : List RACall) :
    ∀ fs s, load_data fs = .ok s →
      ∃ fs', runRecord fs cs = .ok fs' ∧ load_data fs' = .ok (runStore s cs) := by
  induction cs with
  | nil =>
    intro fs s h
    exact ⟨fs, rfl, by simpa [runStore_nil] using h⟩
  | cons c cs ih =>
    intro fs s h
    obtain ⟨fs', h1, h2⟩ := ih (save_data (recordAnswerStore s c)) (recordAnswerStore s c) rfl
    refine ⟨fs', ?_, ?_⟩
    · simp [runRecord, save_chat_history_eq fs s c h, h1]
    · simpa [runStore_cons] using h2

theorem historyOf_record_self (s : Store) (c : RACall) :
    historyOf (recordAnswerStore s c) c.email = historyOf s c.email ++ [c.entry] := by
  simp [historyOf, recordAnswerStore, lookup_storeSet_self]

theorem creditsOf_record_self (s : Store) (c : RACall) :
    creditsOf (recordAnswerStore s c) c.email = creditsOf s c.email + 1 := by
  simp [creditsOf, recordAnswerStore, lookup_storeSet_self]

theorem historyOf_record_other (s : Store) (c : RACall) (email : String)
    (h : email ≠ c.email) :
    historyOf (recordAnswerStore s c) email = historyOf s email := by
  simp [historyOf, recordAnswerStore, lookup_storeSet_other _ _ _ _ h]

theorem creditsOf_record_other (s : Store) (c : RACall) (email : String)
    (h : email ≠ c.email) :
    creditsOf (recordAnswerStore s c) email = creditsOf s email := by
  simp [creditsOf, recordAnswerStore, lookup_storeSet_other _ _ _ _ h]

theorem entriesFor_cons (email : String) (c : RACall) (cs : List RACall) :
    entriesFor email (c :: cs) =
      if c.email = email then c.entry :: entriesFor email cs else entriesFor email cs := by
  by_cases h : c.email = email <;> simp [entriesFor, List.filter_cons, h]

theorem historyOf_runStore (email : String) (cs : List RACall) :
    ∀ s, historyOf (runStore s cs) email = historyOf s email ++ entriesFor email cs := by
  induction cs with
  | nil => intro s; simp [runStore_nil, entriesFor]
  | cons c cs ih =>
    intro s
    rw [runStore_cons, ih, entriesFor_cons]
    by_cases h : c.email = email
    · subst h
      rw [historyOf_record_self]
      simp
    · rw [historyOf_record_other _ _ _ (Ne.symm h)]
      simp [h]

theorem creditsOf_runStore (email : String) (cs : List RACall) :
    ∀ s, creditsOf (runStore s cs) email =
      creditsOf s email + (entriesFor email cs).length := by
  induction cs with
  | nil => intro s; simp [runStore_nil, entriesFor]
  | cons c cs ih =>
    intro s
    rw [runStore_cons, ih, entriesFor_cons]
    by_cases h : c.email = email
    · subst h
      rw [creditsOf_record_self]
      simp
      omega
    · rw [creditsOf_record_other _ _ _ (Ne.symm h)]
      simp [h]

/-- On a loadable file, `get_user_stats` returns exactly the credits and
history the store assigns the email. -/
theorem get_user_stats_eq (fs : FileState) (s : Store) (email : String)
    (hload : load_data fs = .ok s) :
    get_user_stats fs email = .ok (creditsOf s email, historyOf s email) := by
  cases hl : lookupStore s email with
  | none =>
    simp [get_user_stats, hload, hl, creditsOf, historyOf, Bind.bind, Except.bind,
      Pure.pure, Except.pure]
  | some r =>
    simp [get_user_stats, hload, hl, creditsOf, historyOf, Bind.bind, Except.bind,
      Pure.pure, Except.pure]

/-! ### Claim theorems -/

/-- C1: starting from any store state in which an email is absent, every
sequence of `recordAnswer` (`save_chat_history`) calls leaves that email's
`credits_used` equal to the number of `QAEntry` records ever appended to
its history — the history is exactly the appended entries in order, its
length equals `credits_used`, and each call for the email appended exactly
one entry and incremented the counter by exactly 1. -/
theorem recordAnswer_credits_eq_appends (fs : FileState) (s : Store) (email : String)
    (cs : List RACall) (hload : load_data fs = .ok s)
    (habsent : lookupStore s email = none) :
    ∃ fs', runRecord fs cs = .ok fs' ∧
      ∃ s', load_data fs' = .ok s' ∧
        historyOf s' email = entriesFor email cs ∧
        creditsOf s' email = (entriesFor email cs).length ∧
        (historyOf s' email).length = creditsOf s' email := by
  obtain ⟨fs', h1, h2⟩ := runRecord_eq cs fs s hload
  have hh : historyOf (runStore s cs) email = entriesFor email cs := by
    rw [historyOf_runStore]
    simp [historyOf, habsent]
  have hc : creditsOf (runStore s cs) email = (entriesFor email cs).length := by
    rw [creditsOf_runStore]
    simp [creditsOf, habsent]
  exact ⟨fs', h1, runStore s cs, h2, hh, hc, by rw [hh, hc]⟩

/-- Witness for C1: the missing-file scenario — `load()` gives `{}`,
`"a@x.com"` is absent, and one `recordAnswer` call leaves it with
`credits_used = 1` and a one-entry history. -/
theorem recordAnswer_credits_eq_appends_wit :
    load_data (none : FileState) = .ok ([] : Store) ∧
    lookupStore [] "a@x.com" = none ∧
    (∃ fs', runRecord none [⟨"a@x.com", "2024-01-01 10:00", "doc.pdf", "q1", "a1"⟩] = .ok fs' ∧
      ∃ s', load_data fs' = .ok s' ∧
        historyOf s' "a@x.com" =
          entriesFor "a@x.com" [⟨"a@x.com", "2024-01-01 10:00", "doc.pdf", "q1", "a1"⟩] ∧
        creditsOf s' "a@x.com" =
          (entriesFor "a@x.com" [⟨"a@x.com", "2024-01-01 10:00", "doc.pdf", "q1", "a1"⟩]).length ∧
        (historyOf s' "a@x.com").length = creditsOf s' "a@x.com") :=
  ⟨rfl, rfl, recordAnswer_credits_eq_appends none [] "a@x.com"
    [⟨"a@x.com", "2024-01-01 10:00", "doc.pdf", "q1", "a1"⟩] rfl rfl⟩

/-- C10: one `recordAnswer` (`save_chat_history`) call writes back every
other email's record unchanged, and gives the target email exactly its old
history with one new entry appended and its old `credits_used` plus 1 — so
no existing history entry is modified or removed. -/
theorem recordAnswer_frame (fs : FileState) (s : Store) (c : RACall)
    (hload : load_data fs = .ok s) :
    ∃ s', save_chat_history fs c.email c.timestamp c.doc_name c.question c.answer =
        .ok (save_data s') ∧
      (∀ e', e' ≠ c.email → lookupStore s' e' = lookupStore s e') ∧
      lookupStore s' c.email =
        some ⟨historyOf s c.email ++ [c.entry], creditsOf s c.email + 1⟩ :=
  ⟨recordAnswerStore s c, save_chat_history_eq fs s c hload,
    fun _ h => lookup_storeSet_other _ _ _ _ h,
    lookup_storeSet_self _ _ _⟩

/-- Witness for C10: a concrete two-user store — recording for `"a@x.com"`
leaves `"b@y.com"`'s record untouched and extends `"a@x.com"`'s by one. -/
theorem recordAnswer_frame_wit :
    load_data (save_data [("b@y.com", ⟨[], 2⟩)]) = .ok [("b@y.com", ⟨[], 2⟩)] ∧
    (∃ s', save_chat_history (save_data [("b@y.com", ⟨[], 2⟩)])
        "a@x.com" "2024-01-01 10:00" "doc.pdf" "q1" "a1" = .ok (save_data s') ∧
      (∀ e', e' ≠ "a@x.com" → lookupStore s' e' = lookupStore [("b@y.com", ⟨[], 2⟩)] e') ∧
      lookupStore s' "a@x.com" =
        some ⟨historyOf [("b@y.com", ⟨[], 2⟩)] "a@x.com" ++
          [RACall.entry ⟨"a@x.com", "2024-01-01 10:00", "doc.pdf", "q1", "a1"⟩],
          creditsOf [("b@y.com", ⟨[], 2⟩)] "a@x.com" + 1⟩) :=
  ⟨rfl, recordAnswer_frame (save_data [("b@y.com", ⟨[], 2⟩)]) [("b@y.com", ⟨[], 2⟩)]
    ⟨"a@x.com", "2024-01-01 10:00", "doc.pdf", "q1", "a1"⟩ rfl⟩

/-- C3: when every one of the 3 bounded attempts fails with a
rate-limit-classified error (its text contains `"429"`),
`ask_gemini_with_retry` returns the fixed busy message. Its return type
`String × List Nat` has no exception component: every exit path of the
embedded function is a returned string. -/
theorem retry_exhaustion_returns_busy (call : Nat → CallResult)
    (h : ∀ i, i < 3 → ∃ e, call i = .failure e ∧ hasSubstring "429" e = true) :
    (ask_gemini_with_retry call).1 = busyMsg := by
  obtain ⟨e0, h0, h0m⟩ := h 0 (by norm_num)
  obtain ⟨e1, h1, h1m⟩ := h 1 (by norm_num)
  obtain ⟨e2, h2, h2m⟩ := h 2 (by norm_num)
  simp [ask_gemini_with_retry, wait_times, retryLoop, h0, h1, h2, h0m, h1m, h2m]

/-- Witness for C3: a call that fails with `"HTTP 429"` on every attempt. -/
theorem retry_exhaustion_returns_busy_wit :
    (ask_gemini_with_retry (fun _ => .failure "HTTP 429")).1 = busyMsg :=
  retry_exhaustion_returns_busy (fun _ => .failure "HTTP 429")
    (fun _ _ => ⟨"HTTP 429", rfl, by decide⟩)

/-- C4: rate-limit failures on attempts 1 and 2 followed by success on
attempt 3 return the success text, with exactly 2 backoff waits of the
escalating durations 10 then 20 seconds. -/
theorem retry_two_failures_then_success (call : Nat → CallResult) (e1 e2 t : String)
    (h0 : call 0 = .failure e1) (h0m : hasSubstring "429" e1 = true)
    (h1 : call 1 = .failure e2) (h1m : hasSubstring "429" e2 = true)
    (h2 : call 2 = .success t) :
    ask_gemini_with_retry call = (t, [10, 20]) := by
  simp [ask_gemini_with_retry, wait_times, retryLoop, h0, h1, h2, h0m, h1m]

/-- Witness for C4: `"429"` failures on attempts 1-2, success `"fine"` on
attempt 3. -/
theorem retry_two_failures_then_success_wit :
    ask_gemini_with_retry (fun i => if i = 2 then .success "fine" else .failure "429") =
      ("fine", [10, 20]) :=
  retry_two_failures_then_success (fun i => if i = 2 then .success "fine" else .failure "429")
    "429" "429" "fine" rfl (by decide) rfl (by decide) rfl

/-- C5: whenever any attempt the loop reaches (the first, or a later one
after rate-limit failures on every earlier attempt) fails with an error
whose text does not contain `"429"`, `ask_gemini_with_retry` returns
immediately the formatted technical-error string embedding the underlying
message: the backoff waits are exactly those of the earlier rate-limit
failures, with no further wait and no further attempt (the result does not
depend on later attempts). -/
theorem non_rate_limit_failure_immediate (call : Nat → CallResult) (j : Nat) (e : String)
    (hj : j < 3)
    (hprev : ∀ i, i < j → ∃ ei, call i = .failure ei ∧ hasSubstring "429" ei = true)
    (hfail : call j = .failure e) (hm : hasSubstring "429" e = false) :
    ask_gemini_with_retry call = (technicalErrorMsg e, List.take j wait_times) := by
  interval_cases j
  · simp [ask_gemini_with_retry, wait_times, retryLoop, hfail, hm]
  · obtain ⟨e0, h0, h0m⟩ := hprev 0 (by norm_num)
    simp [ask_gemini_with_retry, wait_times, retryLoop, h0, h0m, hfail, hm]
  · obtain ⟨e0, h0, h0m⟩ := hprev 0 (by norm_num)
    obtain ⟨e1, h1, h1m⟩ := hprev 1 (by norm_num)
    simp [ask_gemini_with_retry, wait_times, retryLoop, h0, h0m, h1, h1m, hfail, hm]

/-- Witness for C5: a `"429"` failure on attempt 1 and a `"boom"` failure
on attempt 2 — the loop stops at attempt 2 with the formatted error and
only the first backoff wait. -/
theorem non_rate_limit_failure_immediate_wit :
    ask_gemini_with_retry (fun i => if i = 0 then .failure "429" else .failure "boom") =
      (technicalErrorMsg "boom", List.take 1 wait_times) :=
  non_rate_limit_failure_immediate
    (fun i => if i = 0 then .failure "429" else .failure "boom") 1 "boom" (by norm_num)
    (fun i hi => by interval_cases i; exact ⟨"429", rfl, by decide⟩) rfl (by decide)

/-- A reply that fails the save guard leaves the handler with only the
user message appended and the backing file untouched. -/
theorem handleQuestion_of_not_savable (chat : List ChatMessage) (fs : FileState)
    (email doc_name timestamp question : String) (call : Nat → CallResult)
    (hm : replySavable ((ask_gemini_with_retry call).1) = false) :
    handleQuestion false chat fs email doc_name timestamp question call =
      (chat ++ [⟨"user", question⟩], fs) := by
  simp [handleQuestion, hm]

/-- C2: a reply from the Answer Engine containing a known failure marker
(the technical-error marker or the system-busy marker) is neither appended
to the transient transcript as an assistant message nor persisted: the
file state is unchanged (no `recordAnswer` call) and every assistant
message with that content was already in the transcript. -/
theorem marker_reply_never_persisted (chat : List ChatMessage) (fs : FileState)
    (email doc_name timestamp question : String) (call : Nat → CallResult) (reply : String)
    (hr : (ask_gemini_with_retry call).1 = reply)
    (hmk : hasSubstring "Technical Error" reply = true ∨
      hasSubstring "System is extremely busy" reply = true) :
    (handleQuestion false chat fs email doc_name timestamp question call).2 = fs ∧
    ∀ m ∈ (handleQuestion false chat fs email doc_name timestamp question call).1,
      m.content = reply → m.role = "assistant" → m ∈ chat := by
  have hsav : replySavable ((ask_gemini_with_retry call).1) = false := by
    rcases hmk with h | h <;> simp [replySavable, hr, h]
  rw [handleQuestion_of_not_savable chat fs email doc_name timestamp question call hsav]
  refine ⟨rfl, ?_⟩
  intro m hmem _hc hrole
  rcases List.mem_append.mp hmem with h | h
  · exact h
  · simp at h
    rw [h] at hrole
    simp at hrole

/-- Witness for C2: a non-rate-limit failure produces the technical-error
reply, and the handler persists nothing. -/
theorem marker_reply_never_persisted_wit :
    (handleQuestion false [] none "a@x.com" "doc.pdf" "2024-01-01 10:00" "q1"
        (fun _ => .failure "boom")).2 = none ∧
    ∀ m ∈ (handleQuestion false [] none "a@x.com" "doc.pdf" "2024-01-01 10:00" "q1"
        (fun _ => .failure "boom")).1,
      m.content = technicalErrorMsg "boom" → m.role = "assistant" →
        m ∈ ([] : List ChatMessage) :=
  marker_reply_never_persisted [] none "a@x.com" "doc.pdf" "2024-01-01 10:00" "q1"
    (fun _ => .failure "boom") (technicalErrorMsg "boom") rfl (.inl (by decide))

/-- C9: the user's message is appended to the transient transcript before
the Answer Engine is invoked, so when the reply carries a failure marker
the transcript still ends with the user's question and gains no paired
assistant message. -/
theorem user_question_kept_on_failure (chat : List ChatMessage) (fs : FileState)
    (email doc_name timestamp question : String) (call : Nat → CallResult) (reply : String)
    (hr : (ask_gemini_with_retry call).1 = reply)
    (hmk : hasSubstring "Technical Error" reply = true ∨
      hasSubstring "System is extremely busy" reply = true) :
    (handleQuestion false chat fs email doc_name timestamp question call).1 =
      chat ++ [⟨"user", question⟩] := by
  have hsav : replySavable ((ask_gemini_with_retry call).1) = false := by
    rcases hmk with h | h <;> simp [replySavable, hr, h]
  rw [handleQuestion_of_not_savable chat fs email doc_name timestamp question call hsav]

/-- Witness for C9: a persistent rate-limit failure yields the busy reply;
the transcript still ends with the user's question, unpaired. -/
theorem user_question_kept_on_failure_wit :
    (handleQuestion false [] none "a@x.com" "doc.pdf" "2024-01-01 10:00" "q2"
        (fun _ => .failure "HTTP 429")).1 = [] ++ [⟨"user", "q2"⟩] :=
  user_question_kept_on_failure [] none "a@x.com" "doc.pdf" "2024-01-01 10:00" "q2"
    (fun _ => .failure "HTTP 429") busyMsg rfl (.inr (by decide))

/-- C6 counterexample: on a present but malformed backing file,
`load_data` does NOT return the empty store — `json.load` raises, so the
malformed-file case is distinguished from the absent-file case. -/
theorem load_malformed_not_empty_cex :
    load_data (some (.malformed "not json")) ≠ .ok ([] : Store) ∧
    load_data (some (.malformed "not json")) = .error jsonDecodeError :=
  ⟨fun h => Except.noConfusion h, rfl⟩

/-- C6 amended: an absent backing file yields the empty store, but a
present malformed file makes `load_data` raise the JSON parse error rather
than returning the empty store. -/
theorem load_absent_empty_malformed_raises :
    load_data (none : FileState) = .ok ([] : Store) ∧
    ∀ raw, load_data (some (.malformed raw)) = .error jsonDecodeError :=
  ⟨rfl, fun _ => rfl⟩

/-- C7 counterexample: `get_user_stats` is not failure-free for every
backing-file state — on a present but malformed file it propagates
`load_data`'s parse error instead of returning `(0, [])`. -/
theorem getStats_malformed_fails_cex :
    get_user_stats (some (.malformed "not json")) "a@x.com" = .error jsonDecodeError ∧
    get_user_stats (some (.malformed "not json")) "a@x.com" ≠ .ok (0, []) :=
  ⟨rfl, fun h => Except.noConfusion h⟩

/-- C7 amended: for every email absent from the store, `get_user_stats`
returns exactly `(0, [])` whenever the backing file is absent or
well-formed; on a malformed file it instead propagates the parse error. -/
theorem getStats_unknown_email (fs : FileState) (s : Store) (email : String)
    (hload : load_data fs = .ok s) (habsent : lookupStore s email = none) :
    get_user_stats fs email = .ok (0, []) := by
  rw [get_user_stats_eq fs s email hload]
  simp [creditsOf, historyOf, habsent]

/-- Witness for C7 (amended): absent file, unseen email. -/
theorem getStats_unknown_email_wit :
    get_user_stats (none : FileState) "a@x.com" = .ok (0, []) :=
  getStats_unknown_email none [] "a@x.com" rfl rfl

/-- C8: the dashboard computes quota remaining as `FREE_LIMIT − creditsUsed`
with `FREE_LIMIT = 5` and shows the question input exactly when that quota
is strictly positive (equivalently, `creditsUsed < 5`); and in the concrete
scenario of 5 successfully recorded answers for `"a@x.com"`, its stats are
`creditsUsed = 5`, quota remaining is 0 and the input is unavailable. -/
theorem quota_gate_iff (fs : FileState) (s : Store) (email : String)
    (hload : load_data fs = .ok s) :
    dashboard_gate fs email =
      .ok (FREE_LIMIT - (creditsOf s email : Int),
        decide (FREE_LIMIT - (creditsOf s email : Int) > 0)) ∧
    (decide (FREE_LIMIT - (creditsOf s email : Int) > 0) = true ↔
      creditsOf s email < 5) ∧
    (∃ fs5, runRecord none
        (List.replicate 5 ⟨"a@x.com", "2024-01-01 10:00", "doc.pdf", "q?", "ans"⟩) =
          .ok fs5 ∧
      ∃ h5, get_user_stats fs5 "a@x.com" = .ok (5, h5) ∧
        dashboard_gate fs5 "a@x.com" = .ok (0, false)) := by
  refine ⟨?_, ?_, ⟨_, rfl, _, rfl, rfl⟩⟩
  · simp [dashboard_gate, get_user_stats_eq fs s email hload, Bind.bind, Except.bind,
      Pure.pure, Except.pure]
  · simp [FREE_LIMIT]

/-- Witness for C8: the absent-file state, where `creditsUsed = 0`, quota
remaining is 5 and the input is shown. -/
theorem quota_gate_iff_wit :
    dashboard_gate (none : FileState) "a@x.com" =
      .ok (FREE_LIMIT - (creditsOf [] "a@x.com" : Int),
        decide (FREE_LIMIT - (creditsOf [] "a@x.com" : Int) > 0)) ∧
    (decide (FREE_LIMIT - (creditsOf [] "a@x.com" : Int) > 0) = true ↔
      creditsOf [] "a@x.com" < 5) ∧
    (∃ fs5, runRecord none
        (List.replicate 5 ⟨"a@x.com", "2024-01-01 10:00", "doc.pdf", "q?", "ans"⟩) =
          .ok fs5 ∧
      ∃ h5, get_user_stats fs5 "a@x.com" = .ok (5, h5) ∧
        dashboard_gate fs5 "a@x.com" = .ok (0, false)) :=
  quota_gate_iff none [] "a@x.com" rfl

end SmartAnalyst
